import Mathlib

/-!
Verification of the metrics pipeline of the US-India CPI dashboard
(`README.py`).  The pipeline filters a raw table of monthly records
(date, US_CPI, India_CPI, Exchange_Rate_INR_USD) by an inclusive date
range and derives summary metrics and columns (cumulative change,
year-over-year inflation via `pct_change(12)`, normalization to base
100, PPP implied rate and deviation, Pearson correlation).

Numeric values are embedded as `PVal`, an idealisation of the IEEE
floating point numbers the pandas/numpy stack computes with: an exact
rational together with the special values `+inf`, `-inf` and `NaN`,
with the numpy propagation rules (division of a nonzero value by zero
yields a signed infinity with only a warning, `0/0` yields NaN, and
special values propagate through arithmetic).  Rounding is idealised
away; the claims under check are exact algebraic identities.
-/

/-- A pandas/numpy float value: an exact rational, or one of the IEEE
special values produced by the library (positive infinity, negative
infinity, NaN).  NaN also stands for a missing/null entry, as in
pandas (e.g. the first 12 entries of `pct_change(12)`). -/
inductive PVal where
  | real : ℚ → PVal
  | posInf : PVal
  | negInf : PVal
  | nan : PVal
deriving DecidableEq

namespace PVal

/-- numpy addition on float values. -/
def add : PVal → PVal → PVal
  | nan, _ => nan
  | _, nan => nan
  | real a, real b => real (a + b)
  | real _, posInf => posInf
  | posInf, real _ => posInf
  | real _, negInf => negInf
  | negInf, real _ => negInf
  | posInf, posInf => posInf
  | negInf, negInf => negInf
  | posInf, negInf => nan
  | negInf, posInf => nan

/-- numpy negation on float values. -/
def neg : PVal → PVal
  | real a => real (-a)
  | posInf => negInf
  | negInf => posInf
  | nan => nan

/-- numpy subtraction on float values. -/
def sub (a b : PVal) : PVal := a.add b.neg

/-- numpy multiplication on float values. -/
def mul : PVal → PVal → PVal
  | nan, _ => nan
  | _, nan => nan
  | real a, real b => real (a * b)
  | real a, posInf => if a = 0 then nan else if 0 < a then posInf else negInf
  | real a, negInf => if a = 0 then nan else if 0 < a then negInf else posInf
  | posInf, real b => if b = 0 then nan else if 0 < b then posInf else negInf
  | negInf, real b => if b = 0 then nan else if 0 < b then negInf else posInf
  | posInf, posInf => posInf
  | posInf, negInf => negInf
  | negInf, posInf => negInf
  | negInf, negInf => posInf

/-- numpy division on float values.  This is where the library's
silent behaviour lives: `a / 0` is `±inf` for nonzero `a` and NaN for
`a = 0`, with no exception raised (numpy emits only a warning). -/
def div : PVal → PVal → PVal
  | nan, _ => nan
  | _, nan => nan
  | real a, real b =>
      if b = 0 then (if a = 0 then nan else if 0 < a then posInf else negInf)
      else real (a / b)
  | real _, posInf => real 0
  | real _, negInf => real 0
  | posInf, real b => if 0 ≤ b then posInf else negInf
  | negInf, real b => if 0 ≤ b then negInf else posInf
  | posInf, posInf => nan
  | posInf, negInf => nan
  | negInf, posInf => nan
  | negInf, negInf => nan

end PVal

/-- One record of the raw table: a date (an abstract totally ordered
time stamp; calendar granularity is irrelevant to the pipeline) and
the three series values. -/
structure Row where
  date : Int
  us : ℚ
  india : ℚ
  fx : ℚ
deriving DecidableEq

/-- The `US_CPI` column of a table. -/
def usCol (t : List Row) : List ℚ := t.map Row.us

/-- The `India_CPI` column of a table. -/
def indiaCol (t : List Row) : List ℚ := t.map Row.india

/-- The `Exchange_Rate_INR_USD` column of a table. -/
def fxCol (t : List Row) : List ℚ := t.map Row.fx

/-- The date-range filter of lines 81-82:
`mask = (df.Date >= start_date) & (df.Date <= end_date);
df_filtered = df[mask].copy()`. -/
def filterRange (df : List Row) (s e : Int) : List Row :=
  df.filter (fun r => decide (s ≤ r.date) && decide (r.date ≤ e))

/-- Errors of the embedded pipeline.  The code itself only ever
produces `indexOOB` (the pandas `IndexError` raised by a positional
`.iloc` access on an empty frame).  The other two constructors are the
errors prescribed by the specification's error taxonomy (§7), embedded
here so that the spec's error-handling claims can be stated and
compared against the code's actual behaviour; no code path produces
them. -/
inductive PipeError where
  | indexOOB : PipeError
  | emptyRange : PipeError
  | divisionByZero : Nat → PipeError
deriving DecidableEq

/-- `series.iloc[0]`: the first element, or the pandas `IndexError`
on an empty series. -/
def iloc0 (l : List ℚ) : Except PipeError ℚ :=
  match l with
  | [] => .error .indexOOB
  | a :: _ => .ok a

/-- `series.iloc[-1]`: the last element, or the pandas `IndexError`
on an empty series. -/
def ilocLast (l : List ℚ) : Except PipeError ℚ :=
  match l.getLast? with
  | none => .error .indexOOB
  | some a => .ok a

/-- Lines 85-90: `calculate_metrics(df)` returns the three cumulative
percent changes `(iloc[-1] / iloc[0] - 1) * 100` of US_CPI, India_CPI
and Exchange_Rate_INR_USD. -/
def calculate_metrics (t : List Row) : Except PipeError (PVal × PVal × PVal) := do
  let usL ← ilocLast (usCol t)
  let us0 ← iloc0 (usCol t)
  let inL ← ilocLast (indiaCol t)
  let in0 ← iloc0 (indiaCol t)
  let fxL ← ilocLast (fxCol t)
  let fx0 ← iloc0 (fxCol t)
  return ((((PVal.real usL).div (PVal.real us0)).sub (PVal.real 1)).mul (PVal.real 100),
          (((PVal.real inL).div (PVal.real in0)).sub (PVal.real 1)).mul (PVal.real 100),
          (((PVal.real fxL).div (PVal.real fx0)).sub (PVal.real 1)).mul (PVal.real 100))

/-- Line 119: `inflation_diff = india_inf - us_inf`. -/
def inflation_diff (india_inf us_inf : PVal) : PVal := india_inf.sub us_inf

/-- Lines 92 and 119 together: run `calculate_metrics` on the filtered
frame and append the inflation differential. -/
def metricsWithDiff (t : List Row) : Except PipeError (PVal × PVal × PVal × PVal) := do
  let (us_inf, india_inf, fx_change) ← calculate_metrics t
  return (us_inf, india_inf, fx_change, inflation_diff india_inf us_inf)

/-- `series.shift(n)`: the series moved down by `n` records, the first
`n` entries becoming NaN (pandas missing values). -/
def pandasShift (n : Nat) (l : List ℚ) : List PVal :=
  List.replicate (min n l.length) PVal.nan ++ (l.take (l.length - n)).map PVal.real

/-- `series.pct_change(n)`: elementwise `series / series.shift(n) - 1`,
the pandas fractional change against the record `n` positions earlier
(an offset by record count, not by calendar distance). -/
def pct_change (n : Nat) (l : List ℚ) : List PVal :=
  List.zipWith (fun a b => ((PVal.real a).div b).sub (PVal.real 1))
    l (pandasShift n l)

/-- Line 172: `US_Inflation_YoY = US_CPI.pct_change(12) * 100`. -/
def yoySeries (l : List ℚ) : List PVal :=
  (pct_change 12 l).map (fun v => v.mul (PVal.real 100))

/-- Line 172, as a column of the filtered table. -/
def US_Inflation_YoY (t : List Row) : List PVal := yoySeries (usCol t)

/-- Line 173, as a column of the filtered table. -/
def India_Inflation_YoY (t : List Row) : List PVal := yoySeries (indiaCol t)

/-- Lines 241-243: `series / series.iloc[0] * 100`.  The only failure
mode is the pandas `IndexError` of `iloc[0]` on an empty frame; a zero
base value produces NaN/infinity entries, not an error. -/
def normalizeSeries (l : List ℚ) : Except PipeError (List PVal) := do
  let b ← iloc0 l
  return l.map (fun x => ((PVal.real x).div (PVal.real b)).mul (PVal.real 100))

/-- Line 241: `US_CPI_Normalized = US_CPI / US_CPI.iloc[0] * 100`. -/
def US_CPI_Normalized (t : List Row) : Except PipeError (List PVal) :=
  normalizeSeries (usCol t)

/-- Line 242. -/
def India_CPI_Normalized (t : List Row) : Except PipeError (List PVal) :=
  normalizeSeries (indiaCol t)

/-- Line 243. -/
def Exchange_Rate_Normalized (t : List Row) : Except PipeError (List PVal) :=
  normalizeSeries (fxCol t)

/-- Line 282: `PPP_Implied = fx.iloc[0] * (India_CPI / US_CPI)
/ (India_CPI.iloc[0] / US_CPI.iloc[0])`. -/
def PPP_Implied (t : List Row) : Except PipeError (List PVal) := do
  let fx0 ← iloc0 (fxCol t)
  let in0 ← iloc0 (indiaCol t)
  let us0 ← iloc0 (usCol t)
  return t.map (fun r =>
    ((PVal.real fx0).mul ((PVal.real r.india).div (PVal.real r.us))).div
      ((PVal.real in0).div (PVal.real us0)))

/-- Line 283: `PPP_Deviation = (fx - PPP_Implied) / PPP_Implied * 100`. -/
def PPP_Deviation (t : List Row) : Except PipeError (List PVal) := do
  let ppp ← PPP_Implied t
  return List.zipWith
    (fun f p => (((PVal.real f).sub p).div p).mul (PVal.real 100))
    (fxCol t) ppp

/-- Arithmetic mean of a series, as a real number (Pearson
correlation involves square roots, so the correlation layer is
embedded over the reals rather than over `PVal`). -/
noncomputable def seriesMean (l : List ℝ) : ℝ := l.sum / l.length

/-- A series with its mean subtracted from every entry. -/
noncomputable def centered (l : List ℝ) : List ℝ :=
  l.map (fun x => x - seriesMean l)

/-- Pairwise dot product of two series (truncating at the shorter). -/
noncomputable def dotl : List ℝ → List ℝ → ℝ
  | a :: xs, b :: ys => a * b + dotl xs ys
  | _, _ => 0

/-- Pearson correlation coefficient of two series, as computed by
`pandas.DataFrame.corr`: the centered dot product divided by the
product of the root centered sums of squares. -/
noncomputable def pearson (x y : List ℝ) : ℝ :=
  dotl (centered x) (centered y) /
    (Real.sqrt (dotl (centered x) (centered x)) *
     Real.sqrt (dotl (centered y) (centered y)))

/-- The three numeric columns of the table as real series, in the
order `US_CPI, India_CPI, Exchange_Rate_INR_USD` of line 316. -/
noncomputable def col3 (t : List Row) : Fin 3 → List ℝ
  | 0 => (usCol t).map (fun q => (q : ℝ))
  | 1 => (indiaCol t).map (fun q => (q : ℝ))
  | 2 => (fxCol t).map (fun q => (q : ℝ))

/-- Line 316: `corr_df = df_filtered[[US_CPI, India_CPI,
Exchange_Rate_INR_USD]].corr()`, the 3x3 Pearson correlation matrix. -/
noncomputable def corr_df (t : List Row) : Fin 3 → Fin 3 → ℝ :=
  fun i j => pearson (col3 t i) (col3 t j)

/-- The program state relevant to the frame claim: the raw table
variable `df` and the filtered copy `df_filtered` together with the
derived columns attached to it.  `df[mask].copy()` (line 82) makes
`df_filtered` value-independent of `df`, and every later column
assignment (lines 172-173, 241-243, 282-283) targets `df_filtered`
only. -/
structure ProgState where
  df : List Row
  df_filtered : List Row
  derived : List (String × List PVal)
deriving DecidableEq

/-- The full pipeline in script order: filter (lines 81-82), summary
metrics (line 92), YoY columns (lines 172-173), normalized columns
(lines 241-243), PPP columns (lines 282-283).  Each step that indexes
the first record can raise the pandas `IndexError`, which aborts the
script exactly as an uncaught exception does. -/
def runPipeline (df : List Row) (s e : Int) : Except PipeError ProgState := do
  let fil := filterRange df s e
  let _metrics ← metricsWithDiff fil
  let usYoY := US_Inflation_YoY fil
  let inYoY := India_Inflation_YoY fil
  let usN ← US_CPI_Normalized fil
  let inN ← India_CPI_Normalized fil
  let fxN ← Exchange_Rate_Normalized fil
  let ppp ← PPP_Implied fil
  let dev ← PPP_Deviation fil
  return { df := df
           df_filtered := fil
           derived := [("US_Inflation_YoY", usYoY),
                       ("India_Inflation_YoY", inYoY),
                       ("US_CPI_Normalized", usN),
                       ("India_CPI_Normalized", inN),
                       ("Exchange_Rate_Normalized", fxN),
                       ("PPP_Implied", ppp),
                       ("PPP_Deviation", dev)] }

/-- The specification's `cumulative_change` operation, written from
its formula `(last / first - 1) * 100` over a series, for comparison
with what `calculate_metrics` computes. -/
def cumulative_change (l : List ℚ) : PVal :=
  (((PVal.real (l.getLastD 0)).div (PVal.real l.headI)).sub
    (PVal.real 1)).mul (PVal.real 100)

/-- The raw-table invariant of the data model: records sorted
ascending by date. -/
def sortedByDate (l : List Row) : Prop :=
  l.Pairwise (fun a b => a.date ≤ b.date)

instance (l : List Row) : Decidable (sortedByDate l) := by
  unfold sortedByDate; infer_instance

/-- A one-record raw table used as a concrete input. -/
def exRaw : List Row := [⟨0, 100, 100, 70⟩]

/-- A two-record table whose US_CPI contains a zero value (at the
base index), used to exercise the division-by-zero behaviour. -/
def exZero : List Row := [⟨0, 0, 1, 70⟩, ⟨1, 1, 2, 71⟩]

/-- A 13-record series, long enough for one defined `pct_change(12)`
entry. -/
def exSeries : List ℚ := [1, 2, 3, 4, 5, 6, 7, 8, 9, 10, 11, 12, 13]

/-- A two-record table whose three columns all have nonzero
variance. -/
def exVar : List Row := [⟨0, 1, 1, 1⟩, ⟨1, 2, 3, 5⟩]

/-- The program state produced by running the pipeline on `exRaw`
with bounds `[0, 1]`, written out literally. -/
def exState : ProgState :=
  { df := exRaw
    df_filtered := [⟨0, 100, 100, 70⟩]
    derived := [("US_Inflation_YoY", [PVal.nan]),
                ("India_Inflation_YoY", [PVal.nan]),
                ("US_CPI_Normalized", [PVal.real 100]),
                ("India_CPI_Normalized", [PVal.real 100]),
                ("Exchange_Rate_Normalized", [PVal.real 100]),
                ("PPP_Implied", [PVal.real 70]),
                ("PPP_Deviation", [PVal.real 0])] }

/-- On a non-empty series `iloc[0]` succeeds with the head. -/
theorem iloc0_of_ne_nil (l : List ℚ) (h : l ≠ []) :
    iloc0 l = Except.ok l.headI := by
  cases l with
  | nil => exact absurd rfl h
  | cons a t => rfl

/-- On a non-empty series `iloc[-1]` succeeds with the last element. -/
theorem ilocLast_of_ne_nil (l : List ℚ) (h : l ≠ []) :
    ilocLast l = Except.ok (l.getLastD 0) := by
  unfold ilocLast
  cases hl : l.getLast? with
  | none => exact absurd (List.getLast?_eq_none_iff.mp hl) h
  | some a => simp [List.getLastD_eq_getLast?, hl]

/-- C7: for every raw table and bounds `s ≤ e`, applying the
date-range filter twice with the same bounds gives the same result as
applying it once. -/
theorem filterRange_idempotent (raw : List Row) (s e : Int) (h : s ≤ e) :
    filterRange (filterRange raw s e) s e = filterRange raw s e := by
  unfold filterRange
  rw [List.filter_filter]
  exact List.filter_congr (fun x _ => by rw [Bool.and_self])

/-- Witness for `filterRange_idempotent` at a concrete table and
bounds. -/
theorem filterRange_idempotent_witness :
    (0 : Int) ≤ 1 ∧
    filterRange (filterRange exRaw 0 1) 0 1 = filterRange exRaw 0 1 :=
  ⟨by decide, filterRange_idempotent exRaw 0 1 (by decide)⟩

/-- C6 counterexample: normalizing a series whose first element is 0
does not make the first normalized entry 100; the code divides by the
zero base and produces a NaN first entry and an infinite second
entry. -/
theorem normalize_zero_head_counterexample :
    normalizeSeries [0, 1] = Except.ok [PVal.nan, PVal.posInf] ∧
    PVal.nan ≠ PVal.real 100 :=
  ⟨rfl, by decide⟩

/-- C6 amended: for every non-empty series whose first element is
nonzero, normalization succeeds and its first entry equals 100. -/
theorem normalize_head_100 (l : List ℚ) (h : l ≠ []) (h0 : l.headI ≠ 0) :
    ∃ out, normalizeSeries l = Except.ok out ∧
      out.head? = some (PVal.real 100) := by
  cases l with
  | nil => exact absurd rfl h
  | cons a t =>
    refine ⟨_, rfl, ?_⟩
    have ha : a ≠ 0 := by simpa using h0
    simp [PVal.div, PVal.mul, ha, div_self ha]

/-- Witness for `normalize_head_100` at the series `[2, 4]`. -/
theorem normalize_head_100_witness :
    ([2, 4] : List ℚ) ≠ [] ∧ ([2, 4] : List ℚ).headI ≠ 0 ∧
    ∃ out, normalizeSeries [2, 4] = Except.ok out ∧
      out.head? = some (PVal.real 100) :=
  ⟨by decide, by decide, normalize_head_100 [2, 4] (by decide) (by decide)⟩

/-- C1: for every non-empty filtered table, `calculate_metrics`
returns the cumulative percent change `(last / first - 1) * 100` of
each of the three series, and the inflation differential of line 119
equals the India cumulative change minus the US cumulative change. -/
theorem calculate_metrics_cumulative (t : List Row) (h : t ≠ []) :
    metricsWithDiff t = Except.ok
      (cumulative_change (usCol t), cumulative_change (indiaCol t),
       cumulative_change (fxCol t),
       (cumulative_change (indiaCol t)).sub (cumulative_change (usCol t))) := by
  have hus : usCol t ≠ [] := by simp [usCol, h]
  have hin : indiaCol t ≠ [] := by simp [indiaCol, h]
  have hfx : fxCol t ≠ [] := by simp [fxCol, h]
  simp [metricsWithDiff, calculate_metrics, inflation_diff, cumulative_change,
        ilocLast_of_ne_nil _ hus, iloc0_of_ne_nil _ hus,
        ilocLast_of_ne_nil _ hin, iloc0_of_ne_nil _ hin,
        ilocLast_of_ne_nil _ hfx, iloc0_of_ne_nil _ hfx]
  rfl

/-- Witness for `calculate_metrics_cumulative` at a one-record
table. -/
theorem calculate_metrics_cumulative_witness :
    exRaw ≠ [] ∧
    metricsWithDiff exRaw = Except.ok
      (cumulative_change (usCol exRaw), cumulative_change (indiaCol exRaw),
       cumulative_change (fxCol exRaw),
       (cumulative_change (indiaCol exRaw)).sub
         (cumulative_change (usCol exRaw))) :=
  ⟨by decide, calculate_metrics_cumulative exRaw (by decide)⟩

/-- C2 counterexample: with bounds past the only date, the filter
selects zero records and `calculate_metrics` fails with the pandas
positional-indexer `IndexError`, which is not the specification's
explicit `EmptyRangeError`. -/
theorem empty_range_counterexample :
    filterRange exRaw 5 6 = [] ∧
    calculate_metrics (filterRange exRaw 5 6) = Except.error PipeError.indexOOB ∧
    PipeError.indexOOB ≠ PipeError.emptyRange :=
  ⟨rfl, rfl, by decide⟩

/-- C2 amended: whenever the date-range filter selects zero records,
every derived computation that indexes the first record — the summary
metrics, the three normalizations, the PPP columns, and hence the
whole pipeline — fails with the pandas positional-indexer
`IndexError` (an uncaught crash), not with an explicit
`EmptyRangeError`, and no NaN-filled table is produced. -/
theorem empty_range_index_error (raw : List Row) (s e : Int)
    (h : filterRange raw s e = []) :
    calculate_metrics (filterRange raw s e) = Except.error PipeError.indexOOB ∧
    US_CPI_Normalized (filterRange raw s e) = Except.error PipeError.indexOOB ∧
    India_CPI_Normalized (filterRange raw s e) = Except.error PipeError.indexOOB ∧
    Exchange_Rate_Normalized (filterRange raw s e) = Except.error PipeError.indexOOB ∧
    PPP_Implied (filterRange raw s e) = Except.error PipeError.indexOOB ∧
    PPP_Deviation (filterRange raw s e) = Except.error PipeError.indexOOB ∧
    runPipeline raw s e = Except.error PipeError.indexOOB := by
  rw [h]
  refine ⟨rfl, rfl, rfl, rfl, rfl, rfl, ?_⟩
  unfold runPipeline
  rw [h]
  rfl

/-- Witness for `empty_range_index_error` with bounds past the only
date of a one-record table. -/
theorem empty_range_index_error_witness :
    filterRange exRaw 5 6 = ([] : List Row) ∧
    (calculate_metrics (filterRange exRaw 5 6) = Except.error PipeError.indexOOB ∧
     US_CPI_Normalized (filterRange exRaw 5 6) = Except.error PipeError.indexOOB ∧
     India_CPI_Normalized (filterRange exRaw 5 6) = Except.error PipeError.indexOOB ∧
     Exchange_Rate_Normalized (filterRange exRaw 5 6) = Except.error PipeError.indexOOB ∧
     PPP_Implied (filterRange exRaw 5 6) = Except.error PipeError.indexOOB ∧
     PPP_Deviation (filterRange exRaw 5 6) = Except.error PipeError.indexOOB ∧
     runPipeline exRaw 5 6 = Except.error PipeError.indexOOB) :=
  ⟨rfl, empty_range_index_error exRaw 5 6 rfl⟩

/-- C3 counterexample: on a table whose US_CPI is 0 at the base
index, the normalization and PPP computations raise no error at all —
they return successfully with NaN/infinity (and silently wrong finite)
entries, instead of a `DivisionByZeroError`. -/
theorem division_by_zero_counterexample :
    US_CPI_Normalized exZero = Except.ok [PVal.nan, PVal.posInf] ∧
    PPP_Implied exZero = Except.ok [PVal.nan, PVal.real 0] ∧
    PVal.nan ≠ PVal.real 0 :=
  ⟨rfl, rfl, by decide⟩

/-- Normalizing a series whose base element is zero succeeds, with
every entry NaN or a signed infinity. -/
theorem normalizeSeries_zero_base (l : List ℚ) (h : l ≠ []) (h0 : l.headI = 0) :
    ∀ out, normalizeSeries l = Except.ok out →
      ∀ v ∈ out, v = PVal.nan ∨ v = PVal.posInf ∨ v = PVal.negInf := by
  cases l with
  | nil => exact absurd rfl h
  | cons a t =>
    have ha : a = 0 := by simpa using h0
    intro out hout
    injection hout with hout2
    subst hout2
    intro v hv
    rw [List.mem_map] at hv
    obtain ⟨x, _, rfl⟩ := hv
    rcases lt_trichotomy x 0 with hx | hx | hx
    · right; right
      simp [ha, PVal.div, PVal.mul, hx.ne, not_lt.mpr hx.le]
    · left
      simp [ha, PVal.div, PVal.mul, hx]
    · right; left
      simp [ha, PVal.div, PVal.mul, hx.ne.symm, hx]

/-- Dividing any value by an exact zero yields NaN or a signed
infinity, never an error. -/
theorem pval_div_real_zero (v : PVal) (q : ℚ) (hq : q = 0) :
    v.div (PVal.real q) = PVal.nan ∨ v.div (PVal.real q) = PVal.posInf ∨
      v.div (PVal.real q) = PVal.negInf := by
  subst hq
  cases v with
  | real a =>
    rcases lt_trichotomy a 0 with hx | hx | hx
    · right; right; simp [PVal.div, hx.ne, not_lt.mpr hx.le]
    · left; simp [PVal.div, hx]
    · right; left; simp [PVal.div, hx.ne.symm, hx]
  | posInf => right; left; simp [PVal.div]
  | negInf => right; right; simp [PVal.div]
  | nan => left; simp [PVal.div]

/-- Multiplying a real by a special value yields a special value. -/
theorem pval_real_mul_special (q : ℚ) (v : PVal)
    (hv : v = PVal.nan ∨ v = PVal.posInf ∨ v = PVal.negInf) :
    (PVal.real q).mul v = PVal.nan ∨ (PVal.real q).mul v = PVal.posInf ∨
      (PVal.real q).mul v = PVal.negInf := by
  rcases hv with h | h | h <;> subst h
  · left; rfl
  · rcases lt_trichotomy q 0 with hx | hx | hx
    · right; right; simp [PVal.mul, hx.ne, not_lt.mpr hx.le]
    · left; simp [PVal.mul, hx]
    · right; left; simp [PVal.mul, hx.ne.symm, hx]
  · rcases lt_trichotomy q 0 with hx | hx | hx
    · right; left; simp [PVal.mul, hx.ne, not_lt.mpr hx.le]
    · left; simp [PVal.mul, hx]
    · right; right; simp [PVal.mul, hx.ne.symm, hx]

/-- Dividing a special value by anything yields a special value. -/
theorem pval_special_div (v w : PVal)
    (hv : v = PVal.nan ∨ v = PVal.posInf ∨ v = PVal.negInf) :
    v.div w = PVal.nan ∨ v.div w = PVal.posInf ∨ v.div w = PVal.negInf := by
  rcases hv with h | h | h <;> subst h <;> cases w <;>
    simp only [PVal.div] <;> (try split_ifs) <;> simp

/-- C3 amended: dividing by a zero CPI value raises no
`DivisionByZeroError` (nor any other error): on every non-empty table
each normalization, the PPP-implied series and the PPP deviation
return successfully; when the US or India normalization base is zero
every entry of that normalized column is NaN or a signed infinity;
when the PPP-implied denominator `India_CPI[0] / US_CPI[0]` is zero
(zero India base with nonzero US base) every PPP entry is NaN or a
signed infinity; and whenever the per-record ratio divisor
`US_CPI[i]` is zero the PPP entry at index `i` is NaN or a signed
infinity — silently corrupted output in every case. -/
theorem division_by_zero_silent (t : List Row) (h : t ≠ []) :
    (∃ l, US_CPI_Normalized t = Except.ok l) ∧
    (∃ l, India_CPI_Normalized t = Except.ok l) ∧
    (∃ l, Exchange_Rate_Normalized t = Except.ok l) ∧
    (∃ l, PPP_Implied t = Except.ok l) ∧
    (∃ l, PPP_Deviation t = Except.ok l) ∧
    ((usCol t).headI = 0 → ∀ l, US_CPI_Normalized t = Except.ok l →
      ∀ v ∈ l, v = PVal.nan ∨ v = PVal.posInf ∨ v = PVal.negInf) ∧
    ((indiaCol t).headI = 0 → ∀ l, India_CPI_Normalized t = Except.ok l →
      ∀ v ∈ l, v = PVal.nan ∨ v = PVal.posInf ∨ v = PVal.negInf) ∧
    ((indiaCol t).headI = 0 → (usCol t).headI ≠ 0 →
      ∀ l, PPP_Implied t = Except.ok l →
      ∀ v ∈ l, v = PVal.nan ∨ v = PVal.posInf ∨ v = PVal.negInf) ∧
    (∀ (i : Nat) (r : Row), t[i]? = some r → r.us = 0 →
      ∀ l, PPP_Implied t = Except.ok l → ∀ w, l[i]? = some w →
        w = PVal.nan ∨ w = PVal.posInf ∨ w = PVal.negInf) := by
  cases t with
  | nil => exact absurd rfl h
  | cons r0 rs =>
    refine ⟨⟨_, rfl⟩, ⟨_, rfl⟩, ⟨_, rfl⟩, ⟨_, rfl⟩, ⟨_, rfl⟩, ?_, ?_, ?_, ?_⟩
    · exact fun h0 => normalizeSeries_zero_base _ (by simp [usCol]) h0
    · exact fun h0 => normalizeSeries_zero_base _ (by simp [indiaCol]) h0
    · intro hin hus l hl v hv
      have hi0 : r0.india = 0 := by simpa [indiaCol] using hin
      have hu0 : r0.us ≠ 0 := by simpa [usCol] using hus
      injection hl with hl2
      subst hl2
      rw [List.mem_map] at hv
      obtain ⟨x, _, rfl⟩ := hv
      have hden : (PVal.real r0.india).div (PVal.real r0.us) = PVal.real 0 := by
        simp [PVal.div, hu0, hi0]
      rw [hden]
      exact pval_div_real_zero _ 0 rfl
    · intro i r hir hr l hl w hw
      injection hl with hl2
      subst hl2
      rw [List.getElem?_map, hir, Option.map_some'] at hw
      injection hw with hw2
      subst hw2
      exact pval_special_div _ _
        (pval_real_mul_special _ _ (pval_div_real_zero _ _ hr))

/-- Witness for `division_by_zero_silent` at the concrete table
`exZero`. -/
theorem division_by_zero_silent_witness :
    exZero ≠ [] ∧
    ((∃ l, US_CPI_Normalized exZero = Except.ok l) ∧
     (∃ l, India_CPI_Normalized exZero = Except.ok l) ∧
     (∃ l, Exchange_Rate_Normalized exZero = Except.ok l) ∧
     (∃ l, PPP_Implied exZero = Except.ok l) ∧
     (∃ l, PPP_Deviation exZero = Except.ok l) ∧
     ((usCol exZero).headI = 0 → ∀ l, US_CPI_Normalized exZero = Except.ok l →
       ∀ v ∈ l, v = PVal.nan ∨ v = PVal.posInf ∨ v = PVal.negInf) ∧
     ((indiaCol exZero).headI = 0 →
       ∀ l, India_CPI_Normalized exZero = Except.ok l →
       ∀ v ∈ l, v = PVal.nan ∨ v = PVal.posInf ∨ v = PVal.negInf) ∧
     ((indiaCol exZero).headI = 0 → (usCol exZero).headI ≠ 0 →
       ∀ l, PPP_Implied exZero = Except.ok l →
       ∀ v ∈ l, v = PVal.nan ∨ v = PVal.posInf ∨ v = PVal.negInf) ∧
     (∀ (i : Nat) (r : Row), exZero[i]? = some r → r.us = 0 →
       ∀ l, PPP_Implied exZero = Except.ok l → ∀ w, l[i]? = some w →
         w = PVal.nan ∨ w = PVal.posInf ∨ w = PVal.negInf)) :=
  ⟨by decide, division_by_zero_silent exZero (by decide)⟩

/-- C5: for every non-empty table with nonzero US and India CPI at
index 0, the PPP-implied series succeeds and its first entry equals
the first actual exchange rate (the anchor property). -/
theorem ppp_implied_anchor (t : List Row) (h : t ≠ [])
    (hus : (usCol t).headI ≠ 0) (hin : (indiaCol t).headI ≠ 0) :
    ∃ l, PPP_Implied t = Except.ok l ∧
      l.head? = some (PVal.real ((fxCol t).headI)) := by
  cases t with
  | nil => exact absurd rfl h
  | cons r rs =>
    have hu : r.us ≠ 0 := by simpa [usCol] using hus
    have hi : r.india ≠ 0 := by simpa [indiaCol] using hin
    refine ⟨_, rfl, ?_⟩
    have hratio : r.india / r.us ≠ 0 := div_ne_zero hi hu
    simp [fxCol, PVal.div, PVal.mul, hu, hratio,
          mul_div_cancel_right₀ r.fx hratio]

/-- Witness for `ppp_implied_anchor` at a one-record table. -/
theorem ppp_implied_anchor_witness :
    exRaw ≠ [] ∧ (usCol exRaw).headI ≠ 0 ∧ (indiaCol exRaw).headI ≠ 0 ∧
    ∃ l, PPP_Implied exRaw = Except.ok l ∧
      l.head? = some (PVal.real ((fxCol exRaw).headI)) :=
  ⟨by decide, by decide, by decide,
   ppp_implied_anchor exRaw (by decide) (by decide) (by decide)⟩

/-- Below the shift offset, `series.shift(n)` holds NaN. -/
theorem pandasShift_getElem_lt (n : Nat) (l : List ℚ) (i : Nat)
    (hn : i < n) (hi : i < l.length) :
    (pandasShift n l)[i]? = some PVal.nan := by
  unfold pandasShift
  rw [List.getElem?_append_left]
  · exact List.getElem?_replicate_of_lt (lt_min hn hi)
  · simpa using lt_min hn hi

/-- At or above the shift offset, `series.shift(n)` holds the value
`n` records earlier. -/
theorem pandasShift_getElem_ge (n : Nat) (l : List ℚ) (i : Nat)
    (hn : n ≤ i) (hi : i < l.length) :
    (pandasShift n l)[i]? = some (PVal.real (l.getD (i - n) 0)) := by
  have hmin : min n l.length = n := min_eq_left (le_trans hn (le_of_lt hi))
  have hin : i - n < l.length - n := by omega
  unfold pandasShift
  rw [List.getElem?_append_right (by simpa [hmin] using hn)]
  rw [List.length_replicate, hmin, List.getElem?_map,
      List.getElem?_take_of_lt hin,
      List.getElem?_eq_getElem (by omega)]
  simp [List.getD_eq_getElem?_getD, List.getElem?_eq_getElem (show i - n < l.length by omega)]

/-- C4: for every series of length greater than 12, the
year-over-year column (`pct_change(12) * 100`) is the missing value
NaN at every index `i < 12`, and at every index `i ≥ 12` equals
`(series[i] / series[i - 12] - 1) * 100`, the offset being by record
count. -/
theorem yoy_record_offset (l : List ℚ) (hlen : 12 < l.length)
    (i : Nat) (hi : i < l.length) :
    (i < 12 → (yoySeries l)[i]? = some PVal.nan) ∧
    (12 ≤ i → (yoySeries l)[i]? = some
      ((((PVal.real (l.getD i 0)).div (PVal.real (l.getD (i - 12) 0))).sub
         (PVal.real 1)).mul (PVal.real 100))) := by
  have hl : l[i]? = some (l.getD i 0) := by
    simp [List.getD_eq_getElem?_getD, List.getElem?_eq_getElem hi]
  constructor
  · intro h12
    unfold yoySeries pct_change
    rw [List.getElem?_map, List.getElem?_zipWith, hl,
        pandasShift_getElem_lt 12 l i h12 hi]
    rfl
  · intro h12
    unfold yoySeries pct_change
    rw [List.getElem?_map, List.getElem?_zipWith, hl,
        pandasShift_getElem_ge 12 l i h12 hi]
    rfl

/-- Witness for `yoy_record_offset` at a 13-record series and index
12 (the first defined YoY entry). -/
theorem yoy_record_offset_witness :
    12 < exSeries.length ∧ 12 < exSeries.length ∧
    ((12 < 12 → (yoySeries exSeries)[12]? = some PVal.nan) ∧
     (12 ≤ 12 → (yoySeries exSeries)[12]? = some
       ((((PVal.real (exSeries.getD 12 0)).div
           (PVal.real (exSeries.getD (12 - 12) 0))).sub
          (PVal.real 1)).mul (PVal.real 100)))) :=
  ⟨by decide, by decide, yoy_record_offset exSeries (by decide) 12 (by decide)⟩

/-- On a sorted table all of whose dates are already at or past the
start bound, the date-range filter keeps an initial segment. -/
theorem filterRange_take_of_lower (s e : Int) :
    ∀ (l : List Row), l.Pairwise (fun a b => a.date ≤ b.date) →
      (∀ r ∈ l, s ≤ r.date) →
      ∃ m, l.filter (fun r => decide (s ≤ r.date) && decide (r.date ≤ e)) =
        l.take m := by
  intro l
  induction l with
  | nil => exact fun _ _ => ⟨0, rfl⟩
  | cons a t ih =>
    intro hp hall
    rw [List.pairwise_cons] at hp
    by_cases hae : a.date ≤ e
    · have hsa : s ≤ a.date := hall a (List.mem_cons_self a t)
      obtain ⟨m, hm⟩ := ih hp.2 (fun r hr => hall r (List.mem_cons_of_mem a hr))
      exact ⟨m + 1, by simp [List.filter_cons, hsa, hae, hm]⟩
    · refine ⟨0, ?_⟩
      rw [List.take_zero, List.filter_eq_nil_iff]
      intro r hr
      have har : a.date ≤ r.date := by
        rcases List.mem_cons.mp hr with h | h
        · exact h ▸ le_refl _
        · exact hp.1 r h
      simp only [Bool.and_eq_true, decide_eq_true_eq]
      exact fun hc => hae (le_trans har hc.2)

/-- On a sorted table the date-range filter returns a contiguous
slice. -/
theorem filterRange_contiguous (s e : Int) :
    ∀ (l : List Row), l.Pairwise (fun a b => a.date ≤ b.date) →
      ∃ n m, filterRange l s e = (l.drop n).take m := by
  intro l
  induction l with
  | nil => exact fun _ => ⟨0, 0, rfl⟩
  | cons a t ih =>
    intro hp
    rw [List.pairwise_cons] at hp
    by_cases hsa : s ≤ a.date
    · by_cases hae : a.date ≤ e
      · have hall : ∀ r ∈ t, s ≤ r.date := fun r hr => le_trans hsa (hp.1 r hr)
        obtain ⟨m, hm⟩ := filterRange_take_of_lower s e t hp.2 hall
        refine ⟨0, m + 1, ?_⟩
        simpa [filterRange, List.filter_cons, hsa, hae] using hm
      · refine ⟨0, 0, ?_⟩
        rw [List.drop_zero, List.take_zero, filterRange, List.filter_eq_nil_iff]
        intro r hr
        have har : a.date ≤ r.date := by
          rcases List.mem_cons.mp hr with h | h
          · exact h ▸ le_refl _
          · exact hp.1 r h
        simp only [Bool.and_eq_true, decide_eq_true_eq]
        exact fun hc => hae (le_trans har hc.2)
    · obtain ⟨n, m, hnm⟩ := ih hp.2
      refine ⟨n + 1, m, ?_⟩
      rw [List.drop_succ_cons]
      simpa [filterRange, List.filter_cons, hsa] using hnm

/-- C8: on a table sorted ascending by date, the date-range filter
returns exactly the records with `s ≤ date ≤ e` (both bounds
inclusive), as a contiguous sub-sequence preserving the original
order, and returns the empty table when no record falls in range. -/
theorem filterRange_spec (raw : List Row) (s e : Int)
    (hs : sortedByDate raw) :
    (∀ r, r ∈ filterRange raw s e ↔ r ∈ raw ∧ s ≤ r.date ∧ r.date ≤ e) ∧
    (filterRange raw s e).Sublist raw ∧
    (∃ n m, filterRange raw s e = (raw.drop n).take m) ∧
    ((∀ r ∈ raw, ¬(s ≤ r.date ∧ r.date ≤ e)) → filterRange raw s e = []) := by
  refine ⟨?_, List.filter_sublist raw, filterRange_contiguous s e raw hs, ?_⟩
  · intro r
    simp [filterRange, List.mem_filter, and_assoc]
  · intro hnone
    rw [filterRange, List.filter_eq_nil_iff]
    intro r hr
    simpa using hnone r hr

/-- Witness for `filterRange_spec` at a sorted two-record table. -/
theorem filterRange_spec_witness :
    sortedByDate exVar ∧
    ((∀ r, r ∈ filterRange exVar 0 0 ↔ r ∈ exVar ∧ 0 ≤ r.date ∧ r.date ≤ 0) ∧
     (filterRange exVar 0 0).Sublist exVar ∧
     (∃ n m, filterRange exVar 0 0 = (exVar.drop n).take m) ∧
     ((∀ r ∈ exVar, ¬(0 ≤ r.date ∧ r.date ≤ 0)) → filterRange exVar 0 0 = [])) :=
  ⟨by decide, filterRange_spec exVar 0 0 (by decide)⟩

/-- The pairwise dot product is commutative. -/
theorem dotl_comm (x : List ℝ) : ∀ y, dotl x y = dotl y x := by
  induction x with
  | nil => intro y; cases y <;> simp [dotl]
  | cons a xs ih =>
    intro y
    cases y with
    | nil => simp [dotl]
    | cons b ys => simp [dotl, ih, mul_comm]

/-- The dot product of a series with itself is nonnegative. -/
theorem dotl_self_nonneg (x : List ℝ) : 0 ≤ dotl x x := by
  induction x with
  | nil => simp [dotl]
  | cons a xs ih =>
    simp only [dotl]
    have := mul_self_nonneg a
    linarith

/-- Cauchy-Schwarz for the pairwise dot product. -/
theorem dotl_sq_le (x : List ℝ) :
    ∀ y, (dotl x y) ^ 2 ≤ dotl x x * dotl y y := by
  induction x with
  | nil => intro y; cases y <;> simp [dotl]
  | cons a xs ih =>
    intro y
    cases y with
    | nil => simp [dotl]
    | cons b ys =>
      have h := ih ys
      have hX := dotl_self_nonneg xs
      have hY := dotl_self_nonneg ys
      simp only [dotl]
      set X := dotl xs xs with hXdef
      set Y := dotl ys ys with hYdef
      set d := dotl xs ys with hddef
      rcases eq_or_lt_of_le hY with hY0 | hY0
      · have hd2 : d ^ 2 = 0 := le_antisymm (by nlinarith) (sq_nonneg d)
        have hd0 : d = 0 := by
          have := sq_eq_zero_iff.mp hd2
          exact this
        rw [hd0, ← hY0]
        nlinarith [mul_nonneg hX (mul_self_nonneg b)]
      · have key : 0 ≤ ((a * a + X) * (b * b + Y) - (a * b + d) ^ 2) * Y := by
          nlinarith [sq_nonneg (a * Y - b * d),
                     mul_nonneg (sq_nonneg b) (sub_nonneg.mpr h),
                     mul_nonneg hY (sub_nonneg.mpr h)]
        nlinarith [key, hY0]

/-- Pearson correlation is symmetric in its two series. -/
theorem pearson_comm (x y : List ℝ) : pearson x y = pearson y x := by
  unfold pearson
  rw [dotl_comm (centered x) (centered y), mul_comm]

/-- Pearson correlation of a series with itself is 1 when its
centered sum of squares is nonzero. -/
theorem pearson_self (x : List ℝ)
    (hx : dotl (centered x) (centered x) ≠ 0) : pearson x x = 1 := by
  unfold pearson
  rw [Real.mul_self_sqrt (dotl_self_nonneg _)]
  exact div_self hx

/-- Pearson correlation always lies in `[-1, 1]`. -/
theorem pearson_mem_Icc (x y : List ℝ) :
    -1 ≤ pearson x y ∧ pearson x y ≤ 1 := by
  have h := dotl_sq_le (centered x) (centered y)
  have hX := dotl_self_nonneg (centered x)
  have hY := dotl_self_nonneg (centered y)
  have hprod : 0 ≤ Real.sqrt (dotl (centered x) (centered x)) *
      Real.sqrt (dotl (centered y) (centered y)) :=
    mul_nonneg (Real.sqrt_nonneg _) (Real.sqrt_nonneg _)
  have habs : |dotl (centered x) (centered y)| ≤
      Real.sqrt (dotl (centered x) (centered x)) *
      Real.sqrt (dotl (centered y) (centered y)) := by
    rw [← Real.sqrt_sq_eq_abs, ← Real.sqrt_mul hX]
    exact Real.sqrt_le_sqrt (by simpa [sq] using h)
  have habs2 : |pearson x y| ≤ 1 := by
    unfold pearson
    rw [abs_div, abs_of_nonneg hprod]
    exact div_le_one_of_le₀ habs hprod
  exact abs_le.mp habs2

/-- C9: for every table whose three series each have nonzero
(centered) variance, the pairwise Pearson correlation matrix over
US_CPI, India_CPI and Exchange_Rate_INR_USD is symmetric, has 1 on
the diagonal, and every entry lies in `[-1, 1]`. -/
theorem corr_df_props (t : List Row)
    (h0 : dotl (centered (col3 t 0)) (centered (col3 t 0)) ≠ 0)
    (h1 : dotl (centered (col3 t 1)) (centered (col3 t 1)) ≠ 0)
    (h2 : dotl (centered (col3 t 2)) (centered (col3 t 2)) ≠ 0) :
    (∀ i j, corr_df t i j = corr_df t j i) ∧
    (∀ i, corr_df t i i = 1) ∧
    (∀ i j, -1 ≤ corr_df t i j ∧ corr_df t i j ≤ 1) := by
  refine ⟨fun i j => pearson_comm _ _, fun i => ?_,
          fun i j => pearson_mem_Icc _ _⟩
  fin_cases i
  · exact pearson_self _ h0
  · exact pearson_self _ h1
  · exact pearson_self _ h2

/-- Witness for `corr_df_props` at a two-record table with nonzero
variance in each column. -/
theorem corr_df_props_witness :
    dotl (centered (col3 exVar 0)) (centered (col3 exVar 0)) ≠ 0 ∧
    dotl (centered (col3 exVar 1)) (centered (col3 exVar 1)) ≠ 0 ∧
    dotl (centered (col3 exVar 2)) (centered (col3 exVar 2)) ≠ 0 ∧
    ((∀ i j, corr_df exVar i j = corr_df exVar j i) ∧
     (∀ i, corr_df exVar i i = 1) ∧
     (∀ i j, -1 ≤ corr_df exVar i j ∧ corr_df exVar i j ≤ 1)) :=
  ⟨by norm_num [col3, usCol, exVar, centered, seriesMean, dotl],
   by norm_num [col3, indiaCol, exVar, centered, seriesMean, dotl],
   by norm_num [col3, fxCol, exVar, centered, seriesMean, dotl],
   corr_df_props exVar
     (by norm_num [col3, usCol, exVar, centered, seriesMean, dotl])
     (by norm_num [col3, indiaCol, exVar, centered, seriesMean, dotl])
     (by norm_num [col3, fxCol, exVar, centered, seriesMean, dotl])⟩

/-- Binding a success in the `Except` monad applies the
continuation. -/
theorem except_bind_ok {ε α β : Type} (a : α) (f : α → Except ε β) :
    (Except.ok a : Except ε α) >>= f = f a := rfl

/-- Binding a failure in the `Except` monad propagates the error. -/
theorem except_bind_error {ε α β : Type} (ee : ε) (f : α → Except ε β) :
    (Except.error ee : Except ε α) >>= f = Except.error ee := rfl

/-- Mapping over a success in the `Except` monad applies the
function. -/
theorem except_map_ok {ε α β : Type} (f : α → β) (a : α) :
    f <$> (Except.ok a : Except ε α) = Except.ok (f a) := rfl

/-- Mapping over a failure in the `Except` monad propagates the
error. -/
theorem except_map_error {ε α β : Type} (f : α → β) (ee : ε) :
    f <$> (Except.error ee : Except ε α) = Except.error ee := rfl

/-- C10: whatever the raw table and bounds, if the pipeline runs to
completion then all derived columns are attached to the filtered copy
only, and the raw table `df` — its rows, hence its columns and its
min/max dates — is unchanged. -/
theorem pipeline_preserves_raw (df : List Row) (s e : Int) (st : ProgState)
    (h : runPipeline df s e = Except.ok st) :
    st.df = df ∧
    st.df_filtered = filterRange df s e ∧
    st.derived.map Prod.fst =
      ["US_Inflation_YoY", "India_Inflation_YoY", "US_CPI_Normalized",
       "India_CPI_Normalized", "Exchange_Rate_Normalized", "PPP_Implied",
       "PPP_Deviation"] ∧
    (st.df.map Row.date).min? = (df.map Row.date).min? ∧
    (st.df.map Row.date).max? = (df.map Row.date).max? := by
  unfold runPipeline at h
  rcases hm : metricsWithDiff (filterRange df s e) with em | m <;>
    simp only [hm, except_bind_ok, except_bind_error] at h
  · exact Except.noConfusion h
  rcases hn1 : US_CPI_Normalized (filterRange df s e) with e1 | l1 <;>
    simp only [hn1, except_bind_ok, except_bind_error] at h
  · exact Except.noConfusion h
  rcases hn2 : India_CPI_Normalized (filterRange df s e) with e2 | l2 <;>
    simp only [hn2, except_bind_ok, except_bind_error] at h
  · exact Except.noConfusion h
  rcases hn3 : Exchange_Rate_Normalized (filterRange df s e) with e3 | l3 <;>
    simp only [hn3, except_bind_ok, except_bind_error] at h
  · exact Except.noConfusion h
  rcases hp : PPP_Implied (filterRange df s e) with e4 | l4 <;>
    simp only [hp, except_bind_ok, except_bind_error] at h
  · exact Except.noConfusion h
  rcases hd : PPP_Deviation (filterRange df s e) with e5 | l5 <;>
    simp only [hd, except_bind_ok, except_bind_error,
               except_map_ok, except_map_error] at h
  · exact Except.noConfusion h
  injection h with h2
  subst h2
  exact ⟨rfl, rfl, rfl, rfl, rfl⟩

/-- Witness for `pipeline_preserves_raw`: the concrete run of the
pipeline on a one-record table. -/
theorem pipeline_preserves_raw_witness :
    runPipeline exRaw 0 1 = Except.ok exState ∧
    (exState.df = exRaw ∧
     exState.df_filtered = filterRange exRaw 0 1 ∧
     exState.derived.map Prod.fst =
       ["US_Inflation_YoY", "India_Inflation_YoY", "US_CPI_Normalized",
        "India_CPI_Normalized", "Exchange_Rate_Normalized", "PPP_Implied",
        "PPP_Deviation"] ∧
     (exState.df.map Row.date).min? = (exRaw.map Row.date).min? ∧
     (exState.df.map Row.date).max? = (exRaw.map Row.date).max?) :=
 by
  have hrun : runPipeline exRaw 0 1 = Except.ok exState := by
    norm_num [runPipeline, exRaw, exState, filterRange, List.filter,
      metricsWithDiff, calculate_metrics, inflation_diff, iloc0, ilocLast,
      usCol, indiaCol, fxCol, US_Inflation_YoY, India_Inflation_YoY,
      yoySeries, pct_change, pandasShift, US_CPI_Normalized,
      India_CPI_Normalized, Exchange_Rate_Normalized, normalizeSeries,
      PPP_Implied, PPP_Deviation, PVal.div, PVal.mul, PVal.sub, PVal.add,
      PVal.neg, except_bind_ok, except_bind_error, except_map_ok, pure,
      Except.pure, List.getLast?]
  exact ⟨hrun, pipeline_preserves_raw exRaw 0 1 exState hrun⟩
